import Mathlib

/-!
Verification of `.devcontainer/post-create.py`, a one-shot devcontainer
bootstrap script.  The script is embedded shallowly: the filesystem trees
touched by the permission toggler are an inductive type, and the script's
control flow is a function from a `World` of environment oracles (which
commands resolve, which external commands succeed, which paths exist) to
an `Outcome` recording the exit code, the stderr message, the logs, the
event trace and the final state of the reference repositories.
-/

namespace PostCreate

mutual
/-- A filesystem tree: a file or a directory with children, each carrying
its permission bits (a `Nat`, e.g. `0o755`). -/
inductive FSTree where
  | file (name : String) (mode : Nat)
  | dir (name : String) (mode : Nat) (children : FSList)
inductive FSList where
  | nil
  | cons (hd : FSTree) (tl : FSList)
end

/-- Mode bits of the root entry of a tree. -/
def FSTree.mode : FSTree → Nat
  | .file _ m => m
  | .dir _ m _ => m

mutual
/-- Set the mode of a node and, recursively, of all nodes below it:
directories get `dm`, files get `fm`.  This is what happens to every
entry that `os.walk` reports as a child of some visited directory. -/
def applyMode (dm fm : Nat) : FSTree → FSTree
  | .file n _ => .file n fm
  | .dir n _ cs => .dir n dm (applyModeList dm fm cs)
def applyModeList (dm fm : Nat) : FSList → FSList
  | .nil => .nil
  | .cons h t => .cons (applyMode dm fm h) (applyModeList dm fm t)
end

/-- The chmod loop of `set_permissions`, following `os.walk(path)`:
every proper descendant of the root is chmod-ed (directories to `dm`,
files to `fm`), while the root entry itself is never visited as a child
of any walked directory and keeps its mode.  Walking a file yields
nothing. -/
def walkChmod (dm fm : Nat) : FSTree → FSTree
  | .file n m => .file n m
  | .dir n m cs => .dir n m (applyModeList dm fm cs)

/-- `set_permissions(path, read_only)` from the source: read-only applies
directories `0o555` / files `0o444`, writable applies `0o755` / `0o644`,
in each case to the tree rooted at `path` via `os.walk`. -/
def set_permissions (read_only : Bool) (t : FSTree) : FSTree :=
  if read_only then walkChmod 0o555 0o444 t else walkChmod 0o755 0o644 t

mutual
/-- Every node of the tree (root included) has mode `dm` if a directory
and `fm` if a file. -/
def allModes (dm fm : Nat) : FSTree → Bool
  | .file _ m => m == fm
  | .dir _ m cs => m == dm && allModesList dm fm cs
def allModesList (dm fm : Nat) : FSList → Bool
  | .nil => true
  | .cons h t => allModes dm fm h && allModesList dm fm t
end

/-- Every proper descendant of the root has mode `dm` (directories) or
`fm` (files); nothing is said about the root entry itself. -/
def childModes (dm fm : Nat) : FSTree → Bool
  | .file _ _ => true
  | .dir _ _ cs => allModesList dm fm cs

mutual
/-- Two trees have the same shape: same kinds and same names everywhere,
ignoring modes. -/
def sameShape : FSTree → FSTree → Bool
  | .file n _, .file n' _ => n == n'
  | .dir n _ cs, .dir n' _ cs' => n == n' && sameShapeList cs cs'
  | _, _ => false
def sameShapeList : FSList → FSList → Bool
  | .nil, .nil => true
  | .cons h t, .cons h' t' => sameShape h h' && sameShapeList t t'
  | _, _ => false
end

theorem allModes_applyMode (dm fm : Nat) (t : FSTree) :
    allModes dm fm (applyMode dm fm t) = true := by
  refine @FSTree.rec (fun t => allModes dm fm (applyMode dm fm t) = true)
    (fun l => allModesList dm fm (applyModeList dm fm l) = true)
    ?_ ?_ ?_ ?_ t
  · intro n m; simp [applyMode, allModes]
  · intro n m cs ih; simp [applyMode, allModes, ih]
  · simp [applyModeList, allModesList]
  · intro h t ih1 ih2; simp [applyModeList, allModesList, ih1, ih2]

theorem allModesList_applyModeList (dm fm : Nat) (l : FSList) :
    allModesList dm fm (applyModeList dm fm l) = true := by
  refine @FSList.rec (fun t => allModes dm fm (applyMode dm fm t) = true)
    (fun l => allModesList dm fm (applyModeList dm fm l) = true)
    ?_ ?_ ?_ ?_ l
  · intro n m; simp [applyMode, allModes]
  · intro n m cs ih; simp [applyMode, allModes, ih]
  · simp [applyModeList, allModesList]
  · intro h t ih1 ih2; simp [applyModeList, allModesList, ih1, ih2]

theorem childModes_walkChmod (dm fm : Nat) (t : FSTree) :
    childModes dm fm (walkChmod dm fm t) = true := by
  cases t with
  | file n m => simp [walkChmod, childModes]
  | dir n m cs => simp [walkChmod, childModes, allModesList_applyModeList]

theorem mode_walkChmod (dm fm : Nat) (t : FSTree) :
    (walkChmod dm fm t).mode = t.mode := by
  cases t <;> simp [walkChmod, FSTree.mode]

theorem mode_set_permissions (b : Bool) (t : FSTree) :
    (set_permissions b t).mode = t.mode := by
  unfold set_permissions
  cases b <;> simp [mode_walkChmod]

theorem childModes_set_permissions_readOnly (t : FSTree) :
    childModes 0o555 0o444 (set_permissions true t) = true := by
  simp [set_permissions, childModes_walkChmod]

theorem childModes_set_permissions_writable (t : FSTree) :
    childModes 0o755 0o644 (set_permissions false t) = true := by
  simp [set_permissions, childModes_walkChmod]

theorem sameShape_applyMode (dm fm : Nat) (t : FSTree) :
    sameShape t (applyMode dm fm t) = true := by
  refine @FSTree.rec (fun t => sameShape t (applyMode dm fm t) = true)
    (fun l => sameShapeList l (applyModeList dm fm l) = true)
    ?_ ?_ ?_ ?_ t
  · intro n m; simp [applyMode, sameShape]
  · intro n m cs ih; simp [applyMode, sameShape, ih]
  · simp [applyModeList, sameShapeList]
  · intro h t ih1 ih2; simp [applyModeList, sameShapeList, ih1, ih2]

theorem sameShapeList_applyModeList (dm fm : Nat) (l : FSList) :
    sameShapeList l (applyModeList dm fm l) = true := by
  refine @FSList.rec (fun t => sameShape t (applyMode dm fm t) = true)
    (fun l => sameShapeList l (applyModeList dm fm l) = true)
    ?_ ?_ ?_ ?_ l
  · intro n m; simp [applyMode, sameShape]
  · intro n m cs ih; simp [applyMode, sameShape, ih]
  · simp [applyModeList, sameShapeList]
  · intro h t ih1 ih2; simp [applyModeList, sameShapeList, ih1, ih2]

theorem sameShape_walkChmod (dm fm : Nat) (t : FSTree) :
    sameShape t (walkChmod dm fm t) = true := by
  cases t with
  | file n m => simp [walkChmod, sameShape]
  | dir n m cs => simp [walkChmod, sameShape, sameShapeList_applyModeList]

theorem sameShape_set_permissions (b : Bool) (t : FSTree) :
    sameShape t (set_permissions b t) = true := by
  unfold set_permissions
  cases b <;> simp [sameShape_walkChmod]

/-- Shape of applyMode over an already-applied list is stable (helper for
composing the writable pass with the read-only pass). -/
theorem sameShapeList_trans_applyModeList (dm fm dm' fm' : Nat) (l : FSList) :
    sameShapeList l (applyModeList dm' fm' (applyModeList dm fm l)) = true := by
  refine @FSList.rec
    (fun t => sameShape t (applyMode dm' fm' (applyMode dm fm t)) = true)
    (fun l => sameShapeList l (applyModeList dm' fm' (applyModeList dm fm l)) = true)
    ?_ ?_ ?_ ?_ l
  · intro n m; simp [applyMode, sameShape]
  · intro n m cs ih'; simp [applyMode, sameShape, ih']
  · simp [applyModeList, sameShapeList]
  · intro h' t' ih1 ih2; simp [applyModeList, sameShapeList, ih1, ih2]

/-- A concrete sample tree: a repository directory with mode `0o700`
containing one file. -/
def sampleTree : FSTree := .dir "repo" 0o700 (.cons (.file "a" 0o600) .nil)

/-! ## The script model

`main` of `post-create.py` is embedded as a function over a `World` of
oracles: which commands resolve on the search path, which external
commands succeed, which paths are directories or files, and the contents
produced by `git clone` / `git pull`. -/

/-- Environment oracles for one run of the script. -/
structure World where
  /-- `shutil.which` at script start. -/
  which : String → Bool
  /-- whether `gh` resolves after a completed apt install. -/
  ghAfterInstall : Bool
  /-- `Path("/etc/apt/keyrings").is_dir()`. -/
  keyringsDirIsDir : Bool
  /-- whether a given external command run via `run()` succeeds. -/
  runOk : List String → Bool
  /-- captured stdout/stderr of a failing external command. -/
  runOut : List String → String × String
  /-- whether `dpkg --print-architecture` (via `check_output`) succeeds. -/
  dpkgOk : Bool
  /-- the exception text when the dpkg query raises. -/
  dpkgErr : String
  /-- name of the temporary file holding the downloaded keyring. -/
  tmpKey : String
  /-- name of the temporary file holding the apt source entry. -/
  tmpSrc : String
  /-- `os.environ.get("GITHUB_REPOSITORY")`. -/
  githubRepository : Option String
  /-- `Path(p).is_dir()` for paths other than the reference repos. -/
  isDir : String → Bool
  /-- `Path(p).is_file()`. -/
  isFile : String → Bool
  /-- initial contents of each reference repository directory, `none` if
  the directory does not exist yet. -/
  initRepos : String → Option FSTree
  /-- the tree produced by a successful `git clone` of a repo. -/
  cloneTree : String → FSTree
  /-- the tree after a successful `git pull` inside an existing repo. -/
  pullTree : String → FSTree → FSTree

/-- Observable side effects of the script, in order. -/
inductive Event where
  | runCmd (cmd : List String) (cwd : Option String)
  | chdir (p : String)
  | mkdirP (p : String)
  | chmodTree (p : String) (readOnly : Bool)
deriving DecidableEq

/-- Mutable state threaded through the run. -/
structure St where
  logs : List String
  events : List Event
  rootDir : String
  cwd : Option String
  repos : String → Option FSTree

/-- State at process start. -/
def St.start : St := ⟨[], [], "", none, fun _ => none⟩

/-- Either a continuing state or a fatal exit carrying the state at the
moment of exit and the stderr message. -/
def M (α : Type) : Type := Except (St × String) α

/-- `error(msg)` from the source: prints `[ERROR] msg` to stderr and
calls `sys.exit(1)`. -/
def fatal (st : St) (msg : String) : M St := .error (st, "[ERROR] " ++ msg)

def emit (st : St) (e : Event) : St :=
  { st with events := st.events ++ [e] }

def addLog (st : St) (s : String) : St :=
  { st with logs := st.logs ++ [s] }

/-- Sequencing with early exit, mirroring that `sys.exit` aborts the
remaining statements. -/
def seqM (x : M St) (f : St → M St) : M St :=
  match x with
  | .ok st => f st
  | .error e => .error e

@[simp] theorem seqM_ok (st : St) (f : St → M St) : seqM (.ok st) f = f st := rfl

@[simp] theorem seqM_error (e : St × String) (f : St → M St) :
    seqM (.error e) f = .error e := rfl

/-- Python `' '.join(cmd)`. -/
def joinSpace : List String → String
  | [] => ""
  | [x] => x
  | x :: rest => x ++ " " ++ joinSpace rest

/-- `run(cmd, cwd)` from the source: invoke the external command; on a
nonzero exit, `error()` with the captured output. -/
def runC (w : World) (st : St) (cmd : List String) (cwd : Option String) : M St :=
  let st1 := emit st (.runCmd cmd cwd)
  if w.runOk cmd then .ok st1
  else fatal st1 ("Command failed: " ++ joinSpace cmd ++
    "\nStdout: " ++ (w.runOut cmd).1 ++ "\nStderr: " ++ (w.runOut cmd).2)

def keyringPath : String := "/etc/apt/keyrings/githubcli-archive-keyring.gpg"

def keyringUrl : String := "https://cli.github.com/packages/githubcli-archive-keyring.gpg"

/-- `install_gh()` from the source.  If `gh` already resolves, nothing
happens.  Otherwise the apt install procedure runs unconditionally: ensure
the keyring directory, download the signing key and move it into place,
make it readable, query the architecture with `dpkg` (whose failure is the
one caught by `except Exception`, producing the `Failed to install` error;
a failing `run()` exits directly through `error()`), write the source list
entry, refresh the package index and install the package. -/
def install_gh (w : World) (st : St) : M St :=
  if w.which "gh" then .ok (addLog st "GitHub CLI (gh) is already installed.") else
  let st := addLog st "GitHub CLI (gh) not found. Installing..."
  seqM (if w.keyringsDirIsDir then .ok st
        else runC w st ["sudo", "mkdir", "-p", "-m", "755", "/etc/apt/keyrings"] none) fun st =>
  seqM (runC w st ["wget", "-qO", w.tmpKey, keyringUrl] none) fun st =>
  seqM (runC w st ["sudo", "mv", w.tmpKey, keyringPath] none) fun st =>
  seqM (runC w st ["sudo", "chmod", "go+r", keyringPath] none) fun st =>
  if w.dpkgOk then
    seqM (runC w st ["sudo", "mv", w.tmpSrc, "/etc/apt/sources.list.d/github-cli.list"] none) fun st =>
    seqM (runC w st ["sudo", "apt-get", "update"] none) fun st =>
    seqM (runC w st ["sudo", "apt-get", "install", "-y", "gh"] none) fun st =>
    .ok (addLog st "GitHub CLI installed successfully.")
  else fatal st ("Failed to install GitHub CLI: " ++ w.dpkgErr)

/-- Availability of a command at the time the `check_command` loop runs:
`gh` may have become available through the install attempt, everything
else is as at start. -/
def whichAfterPreflight (w : World) (c : String) : Bool :=
  if c == "gh" && !w.which "gh" then w.ghAfterInstall else w.which c

/-- `check_command(cmd)` from the source. -/
def check_command (w : World) (st : St) (cmd : String) : M St :=
  if whichAfterPreflight w cmd then .ok (addLog st ("Found command: " ++ cmd))
  else fatal st ("Required command '" ++ cmd ++ "' not found. Exiting.")

/-- Characters of the last `/`-separated segment: scan the characters,
restarting the current segment after each `/`. -/
def lastSegmentAux : List Char → List Char → List Char
  | [], acc => acc.reverse
  | c :: rest, acc =>
      if c = '/' then lastSegmentAux rest [] else lastSegmentAux rest (c :: acc)

/-- Python `s.split("/")[-1]`: the substring after the last `/`, the whole
string when no `/` occurs, and empty when the string ends in `/`. -/
def lastSegment (s : String) : String := ⟨lastSegmentAux s.data []⟩

/-- `Path("/workspaces/" + name)`: pathlib normalization drops a trailing
slash and a trailing `/.` component, so an empty or `"."` segment yields
`/workspaces` itself. -/
def workspacePath (name : String) : String :=
  if name = "" || name = "." then "/workspaces" else "/workspaces/" ++ name

/-- The working-directory computation of `main` (lines 120-125): the last
`/`-separated segment of `GITHUB_REPOSITORY` (default literal
`adk-agents-golden`) under `/workspaces`, falling back to
`/workspaces/adk-agents-golden` when that is not a directory. -/
def computeRootDir (w : World) : String :=
  let repoName := lastSegment ((w.githubRepository).getD "adk-agents-golden")
  let cand := workspacePath repoName
  if w.isDir cand then cand else "/workspaces/adk-agents-golden"

/-- Phase 1 of `main`: `install_gh`, the four `check_command` calls, the
`/workspaces` existence check, and the change of working directory. -/
def preflight (w : World) (st : St) : M St :=
  seqM (install_gh w st) fun st =>
  seqM (check_command w st "git") fun st =>
  seqM (check_command w st "python3") fun st =>
  seqM (check_command w st "pip") fun st =>
  seqM (check_command w st "gh") fun st =>
  if w.isDir "/workspaces" then
    let st := addLog st "/workspaces directory exists."
    let rootDir := computeRootDir w
    let st := emit { st with rootDir := rootDir, cwd := some rootDir } (.chdir rootDir)
    .ok (addLog st ("Changed directory to " ++ rootDir))
  else fatal st "/workspaces directory does not exist. Exiting."

def referenceDir : String := "/workspaces/adk-reference-repos"

/-- The four hard-coded (name, URL) reference repository pairs. -/
def repoList : List (String × String) :=
  [("adk-python", "https://github.com/google/adk-python"),
   ("adk-samples", "https://github.com/google/adk-samples"),
   ("adk-docs", "https://github.com/google/adk-docs"),
   ("adk-python-community", "https://github.com/google/adk-python-community")]

/-- Point update of the reference-repository map. -/
def updateRepo (f : String → Option FSTree) (n : String) (t : FSTree) :
    String → Option FSTree :=
  fun m => if m = n then some t else f m

/-- The body of the repository loop of `main` for one (name, URL) pair:
clone when the directory is absent; otherwise toggle writable, pull, and
in either branch finish by toggling the directory read-only. -/
def syncRepo (w : World) (st : St) (nu : String × String) : M St :=
  let name := nu.1
  let url := nu.2
  let path := referenceDir ++ "/" ++ name
  match st.repos name with
  | none =>
      let st := addLog st ("Cloning " ++ name ++ " from " ++ url)
      seqM (runC w st ["git", "clone", url, path] none) fun st =>
      let t := w.cloneTree name
      let st := { st with repos := updateRepo st.repos name t }
      let st := emit { st with repos := updateRepo st.repos name (set_permissions true t) }
        (.chmodTree path true)
      .ok st
  | some t =>
      let st := addLog st (name ++ " already exists, making it writable to pull latest changes.")
      let tw := set_permissions false t
      let st := emit { st with repos := updateRepo st.repos name tw } (.chmodTree path false)
      seqM (runC w st ["git", "pull"] (some path)) fun st =>
      let tp := w.pullTree name tw
      let st := { st with repos := updateRepo st.repos name tp }
      let st := emit { st with repos := updateRepo st.repos name (set_permissions true tp) }
        (.chmodTree path true)
      .ok st

/-- The repository loop of `main` over a list of pairs. -/
def syncRepos (w : World) : List (String × String) → St → M St
  | [], st => .ok st
  | nu :: rest, st => seqM (syncRepo w st nu) fun st => syncRepos w rest st

/-- Phase 2 of `main`: create the reference directory, materialize the
initial repository state, run the loop over the four pairs, and change
back to the workspace root. -/
def syncPhase (w : World) (st : St) : M St :=
  let st := emit st (.mkdirP referenceDir)
  let st := addLog st ("Cloning reference repositories into " ++ referenceDir)
  let st : St := { st with repos := w.initRepos }
  seqM (syncRepos w repoList st) fun st =>
  let st := emit { st with cwd := some st.rootDir } (.chdir st.rootDir)
  .ok (addLog st ("Changed directory back to " ++ st.rootDir))

/-- Phase 3 of `main`: create the virtual environment when absent, verify
its interpreter, upgrade pip, and install from `requirements.txt` when the
manifest exists, otherwise log a warning and continue. -/
def venvPhase (w : World) (st : St) : M St :=
  let venvDir := st.rootDir ++ "/.venv"
  seqM (if w.isDir venvDir then .ok (addLog st "Virtual environment already exists.")
        else runC w (addLog st "Creating Python virtual environment...")
          ["python3", "-m", "venv", venvDir] none) fun st =>
  if w.isFile (venvDir ++ "/bin/python") then
    let st := addLog st ("Virtual environment successfully verified at " ++ venvDir)
    let st := addLog st "Upgrading pip..."
    seqM (runC w st [venvDir ++ "/bin/pip", "install", "--upgrade", "pip"] none) fun st =>
    if w.isFile (st.rootDir ++ "/requirements.txt") then
      runC w (addLog st "Installing dependencies from requirements.txt...")
        [venvDir ++ "/bin/pip", "install", "-r", st.rootDir ++ "/requirements.txt"] none
    else .ok (addLog st "Warning: requirements.txt not found. Skipping dependency installation.")
  else fatal st "Python executable not found in virtual environment."

/-- The process outcome: exit code, stderr message of `error()` if any,
and the observable state. -/
structure Outcome where
  exitCode : Nat
  errMsg : Option String
  logs : List String
  events : List Event
  cwd : Option String
  repos : String → Option FSTree

/-- `main()` from the source: the three phases in order; reaching the end
exits 0, any `error()` exits 1 with the message on stderr. -/
def runScript (w : World) : Outcome :=
  match seqM (preflight w St.start) (fun st => seqM (syncPhase w st) (venvPhase w)) with
  | .ok st => ⟨0, none, st.logs, st.events, st.cwd, st.repos⟩
  | .error p => ⟨1, some p.2, p.1.logs, p.1.events, p.1.cwd, p.1.repos⟩

/-- The working directory recorded after phase 1. -/
def cwdAfterPreflight (w : World) : Option String :=
  match preflight w St.start with
  | .ok st => st.cwd
  | .error p => p.1.cwd

/-! ## Concrete worlds used by witnesses and counterexamples -/

/-- A fresh container: every command resolves, every external command
succeeds, `/workspaces` exists, no reference repo exists yet, the venv is
created, `requirements.txt` is absent. -/
def happyWorld : World :=
  { which := fun _ => true
    ghAfterInstall := true
    keyringsDirIsDir := true
    runOk := fun _ => true
    runOut := fun _ => ("", "")
    dpkgOk := true
    dpkgErr := ""
    tmpKey := "/tmp/key"
    tmpSrc := "/tmp/src"
    githubRepository := none
    isDir := fun s => s == "/workspaces"
    isFile := fun s => s == "/workspaces/adk-agents-golden/.venv/bin/python"
    initRepos := fun _ => none
    cloneTree := fun n => .dir n 0o755 (.cons (.file "README.md" 0o644) .nil)
    pullTree := fun _ t => t }

/-- Like `happyWorld` but the GitHub CLI is absent and the `dpkg`
architecture query fails, as on a system without the Debian package
tools. -/
def ghMissingWorld : World :=
  { happyWorld with
    which := fun c => !(c == "gh")
    dpkgOk := false
    dpkgErr := "[Errno 2] No such file or directory: 'dpkg'" }

/-- Like `ghMissingWorld` but dpkg succeeds and the package index refresh
is the failing step. -/
def aptUpdateFailsWorld : World :=
  { ghMissingWorld with
    dpkgOk := true
    runOk := fun cmd => !(cmd == ["sudo", "apt-get", "update"]) }

/-- Whether the first character list is an initial run of the second. -/
def leadingRun : List Char → List Char → Bool
  | [], _ => true
  | _ :: _, [] => false
  | a :: as, b :: bs => a == b && leadingRun as bs

/-- Whether `sub` occurs contiguously in `l`. -/
def containsAux (sub : List Char) : List Char → Bool
  | [] => leadingRun sub []
  | c :: rest => leadingRun sub (c :: rest) || containsAux sub rest

/-- Substring test used to state facts about error messages. -/
def containsStr (s subStr : String) : Bool := containsAux subStr.data s.data

/-! ## Claim C5: the permission toggler -/

/-- Shape is preserved by two successive mode passes. -/
theorem sameShape_walkChmod_walkChmod (dm fm dm' fm' : Nat) (t : FSTree) :
    sameShape t (walkChmod dm' fm' (walkChmod dm fm t)) = true := by
  cases t with
  | file n m => simp [walkChmod, sameShape]
  | dir n m cs => simp [walkChmod, sameShape, sameShapeList_trans_applyModeList]

/-- C5 counterexample: on a tree whose root directory has mode `0o700`,
toggling writable and then read-only leaves the root at `0o700`, not at
the claimed `0o755` and `0o555`: `os.walk` never chmods the walked root
itself, so the fixed bit patterns are not applied to every entry of the
tree. -/
theorem C5_counterexample :
    (set_permissions false sampleTree).mode = 0o700 ∧
    (set_permissions false sampleTree).mode ≠ 0o755 ∧
    (set_permissions true (set_permissions false sampleTree)).mode = 0o700 ∧
    (set_permissions true (set_permissions false sampleTree)).mode ≠ 0o555 := by
  decide

/-- C5 (amended): applying the permission toggler with the writable flag
and then with the read-only flag sets exactly 0755 on directories / 0644
on files, then 0555 on directories / 0444 on files, on every proper
descendant of the root; the root entry's own mode bits are left unchanged
by both passes, and the shape of the tree (kinds and names) is not
otherwise affected. -/
theorem C5_toggle_bit_patterns (t : FSTree) :
    childModes 0o755 0o644 (set_permissions false t) = true ∧
    (set_permissions false t).mode = t.mode ∧
    childModes 0o555 0o444 (set_permissions true (set_permissions false t)) = true ∧
    (set_permissions true (set_permissions false t)).mode = t.mode ∧
    sameShape t (set_permissions true (set_permissions false t)) = true := by
  refine ⟨childModes_set_permissions_writable t, mode_set_permissions false t,
    childModes_set_permissions_readOnly (set_permissions false t), ?_, ?_⟩
  · rw [mode_set_permissions, mode_set_permissions]
  · simp only [set_permissions, if_true, if_false, Bool.false_eq_true, ite_false, ite_true]
    exact sameShape_walkChmod_walkChmod 0o755 0o644 0o555 0o444 t

/-! ## Error-message shape: every fatal exit goes through `error()` -/

/-- The stderr payload of a fatal exit always carries the `[ERROR] `
tag that `error()` prints. -/
def ErrShape (e : St × String) : Prop := ∃ m, e.2 = "[ERROR] " ++ m

theorem fatal_shape {st : St} {msg : String} {e : St × String}
    (h : fatal st msg = .error e) : ErrShape e := by
  unfold fatal at h
  cases h
  exact ⟨msg, rfl⟩

theorem runC_shape {w : World} {st : St} {cmd : List String} {cwd : Option String}
    {e : St × String} (h : runC w st cmd cwd = .error e) : ErrShape e := by
  unfold runC at h
  split at h
  · cases h
  · exact fatal_shape h

theorem seqM_shape {x : M St} {f : St → M St}
    (hx : ∀ e, x = .error e → ErrShape e)
    (hf : ∀ st e, f st = .error e → ErrShape e) :
    ∀ e, seqM x f = .error e → ErrShape e := by
  intro e h
  cases x with
  | ok st => exact hf st e h
  | error e' =>
      simp only [seqM_error] at h
      exact hx e h

theorem ok_shape {st : St} : ∀ e, (.ok st : M St) = .error e → ErrShape e := by
  intro e h; cases h

theorem ite_ok_runC_shape {c : Prop} [Decidable c] {w : World} {st1 st2 : St}
    {cmd : List String} {cwd : Option String} :
    ∀ e, (if c then (.ok st1 : M St) else runC w st2 cmd cwd) = .error e → ErrShape e := by
  intro e h
  split at h
  · cases h
  · exact runC_shape h

theorem install_gh_shape (w : World) (st : St) :
    ∀ e, install_gh w st = .error e → ErrShape e := by
  unfold install_gh
  split
  · exact ok_shape
  · refine seqM_shape ite_ok_runC_shape fun st e h => ?_
    refine seqM_shape (fun e h => runC_shape h) (fun st e h => ?_) e h
    refine seqM_shape (fun e h => runC_shape h) (fun st e h => ?_) e h
    refine seqM_shape (fun e h => runC_shape h) (fun st e h => ?_) e h
    split at h
    · refine seqM_shape (fun e h => runC_shape h) (fun st e h => ?_) e h
      refine seqM_shape (fun e h => runC_shape h) (fun st e h => ?_) e h
      refine seqM_shape (fun e h => runC_shape h) (fun st e h => ?_) e h
      cases h
    · exact fatal_shape h

theorem check_command_shape (w : World) (st : St) (cmd : String) :
    ∀ e, check_command w st cmd = .error e → ErrShape e := by
  unfold check_command
  intro e h
  split at h
  · cases h
  · exact fatal_shape h

theorem preflight_shape (w : World) (st : St) :
    ∀ e, preflight w st = .error e → ErrShape e := by
  unfold preflight
  refine seqM_shape (install_gh_shape w st) fun st e h => ?_
  refine seqM_shape (check_command_shape w st "git") (fun st e h => ?_) e h
  refine seqM_shape (check_command_shape w st "python3") (fun st e h => ?_) e h
  refine seqM_shape (check_command_shape w st "pip") (fun st e h => ?_) e h
  refine seqM_shape (check_command_shape w st "gh") (fun st e h => ?_) e h
  split at h
  · cases h
  · exact fatal_shape h

theorem syncRepo_shape (w : World) (st : St) (nu : String × String) :
    ∀ e, syncRepo w st nu = .error e → ErrShape e := by
  intro e h
  rcases hr : st.repos nu.1 with _ | t <;> simp only [syncRepo, hr] at h
  · exact seqM_shape (fun e h => runC_shape h) (fun st e h => by cases h) e h
  · exact seqM_shape (fun e h => runC_shape h) (fun st e h => by cases h) e h

theorem syncRepos_shape (w : World) :
    ∀ (l : List (String × String)) (st : St),
      ∀ e, syncRepos w l st = .error e → ErrShape e := by
  intro l
  induction l with
  | nil => intro st e h; cases h
  | cons nu rest ih =>
      intro st
      exact seqM_shape (syncRepo_shape w st nu) fun st e h => ih st e h

theorem syncPhase_shape (w : World) (st : St) :
    ∀ e, syncPhase w st = .error e → ErrShape e := by
  unfold syncPhase
  refine seqM_shape (syncRepos_shape w repoList _) fun st e h => by cases h

theorem venvPhase_shape (w : World) (st : St) :
    ∀ e, venvPhase w st = .error e → ErrShape e := by
  unfold venvPhase
  refine seqM_shape ite_ok_runC_shape fun st e h => ?_
  split at h
  · refine seqM_shape (fun e h => runC_shape h) (fun st e h => ?_) e h
    split at h
    · exact runC_shape h
    · cases h
  · exact fatal_shape h

/-- C6: the process exits with code 0 on full success, and with code 1
via the explicit `error()` termination on any fatal condition, with the
error message (tagged `[ERROR] `) written to standard error; there is no
other exit path, no retry and no partial-success outcome. -/
theorem C6_exit_behavior (w : World) :
    ((runScript w).exitCode = 0 ∧ (runScript w).errMsg = none) ∨
    ((runScript w).exitCode = 1 ∧
      ∃ m, (runScript w).errMsg = some ("[ERROR] " ++ m)) := by
  unfold runScript
  cases h : seqM (preflight w St.start) (fun st => seqM (syncPhase w st) (venvPhase w)) with
  | ok st => left; exact ⟨rfl, rfl⟩
  | error p =>
      right
      refine ⟨rfl, ?_⟩
      have hs : ErrShape p := by
        refine seqM_shape (preflight_shape w St.start) (fun st e h => ?_) p h
        exact seqM_shape (syncPhase_shape w st) (fun st e h => venvPhase_shape w st e h) e h
      obtain ⟨m, hm⟩ := hs
      exact ⟨m, by simp [hm]⟩

/-! ## Claims C1 and C7: the GitHub CLI installer and the command checks -/

/-- C1 counterexample: with the GitHub CLI absent on a system whose
`dpkg` query fails (a non-Debian system), the process does exit fatally,
but only after attempting the installation: the event trace contains the
download of the apt signing key, and no release marker file is ever
consulted, contradicting "terminates with a fatal error instead of
attempting installation". -/
theorem C1_counterexample :
    ghMissingWorld.which "gh" = false ∧
    (runScript ghMissingWorld).exitCode = 1 ∧
    Event.runCmd ["wget", "-qO", "/tmp/key", keyringUrl] none ∈
      (runScript ghMissingWorld).events ∧
    (runScript ghMissingWorld).errMsg =
      some "[ERROR] Failed to install GitHub CLI: [Errno 2] No such file or directory: 'dpkg'" := by
  decide

/-- C1 (amended): when the GitHub CLI is absent the installer performs no
OS detection (no release marker file is read) and unconditionally attempts
the Debian/apt installation procedure; on a system where the `dpkg`
architecture query fails (as on a non-Debian OS) the process terminates
with exit code 1 and a fatal `Failed to install GitHub CLI` error, but
only after installation steps have been attempted. -/
theorem C1_installer_behavior (w : World) (hgh : w.which "gh" = false)
    (hkey : w.keyringsDirIsDir = true)
    (hwget : w.runOk ["wget", "-qO", w.tmpKey, keyringUrl] = true)
    (hmv : w.runOk ["sudo", "mv", w.tmpKey, keyringPath] = true)
    (hchmod : w.runOk ["sudo", "chmod", "go+r", keyringPath] = true)
    (hdpkg : w.dpkgOk = false) :
    (runScript w).exitCode = 1 ∧
    (runScript w).errMsg = some ("[ERROR] " ++ ("Failed to install GitHub CLI: " ++ w.dpkgErr)) ∧
    Event.runCmd ["wget", "-qO", w.tmpKey, keyringUrl] none ∈ (runScript w).events := by
  unfold runScript preflight install_gh
  simp [hgh, hkey, hdpkg, runC, hwget, hmv, hchmod, fatal, emit, addLog, St.start]

/-- Witness for C1_installer_behavior at the concrete world
`ghMissingWorld`. -/
theorem C1_installer_behavior_witness :
    (runScript ghMissingWorld).exitCode = 1 ∧
    (runScript ghMissingWorld).errMsg =
      some ("[ERROR] " ++ ("Failed to install GitHub CLI: " ++ ghMissingWorld.dpkgErr)) ∧
    Event.runCmd ["wget", "-qO", ghMissingWorld.tmpKey, keyringUrl] none ∈
      (runScript ghMissingWorld).events :=
  C1_installer_behavior ghMissingWorld (by decide) (by decide) (by decide)
    (by decide) (by decide) (by decide)

/-- The four required commands, in the order `main` checks them. -/
def requiredCmds : List String := ["git", "python3", "pip", "gh"]

/-- C7 counterexample: the GitHub CLI is missing and cannot be
auto-installed (the `apt-get update` step fails).  The process does exit
nonzero, but the error is the multi-line `Command failed` message of the
failing install step: it spans several lines and does not name `gh`,
contradicting "a single error line naming the missing command". -/
theorem C7_counterexample :
    aptUpdateFailsWorld.which "gh" = false ∧
    (runScript aptUpdateFailsWorld).exitCode = 1 ∧
    (runScript aptUpdateFailsWorld).errMsg =
      some "[ERROR] Command failed: sudo apt-get update\nStdout: \nStderr: " ∧
    containsStr "[ERROR] Command failed: sudo apt-get update\nStdout: \nStderr: " "\n" = true ∧
    containsStr "[ERROR] Command failed: sudo apt-get update\nStdout: \nStderr: " "gh" = false := by
  decide

/-- C7 (amended): if a required command is missing — for `git`, `python3`
and `pip` outright, and for the GitHub CLI when the install attempt
completes without making `gh` resolvable — the process exits with code 1
and a single error line (no newline) naming the missing command; when the
GitHub CLI is missing and an installation step itself fails, the process
instead exits with the error of the failed step. -/
theorem C7_missing_command (w : World) (cmd : String)
    (hmem : cmd ∈ requiredCmds)
    (hpre : w.which "gh" = true ∨
      (w.keyringsDirIsDir = true ∧ w.dpkgOk = true ∧ ∀ c, w.runOk c = true))
    (hprev : ∀ c ∈ requiredCmds.takeWhile (fun c => c ≠ cmd),
      whichAfterPreflight w c = true)
    (hmiss : whichAfterPreflight w cmd = false) :
    (runScript w).exitCode = 1 ∧
    (runScript w).errMsg =
      some ("[ERROR] Required command '" ++ cmd ++ "' not found. Exiting.") ∧
    containsStr ("[ERROR] Required command '" ++ cmd ++ "' not found. Exiting.") "\n" = false ∧
    containsStr ("[ERROR] Required command '" ++ cmd ++ "' not found. Exiting.") cmd = true := by
  obtain ⟨st1, h1⟩ : ∃ st1, install_gh w St.start = .ok st1 := by
    rcases hg : w.which "gh" with _ | _
    · rcases hpre with hpre | ⟨hk, hd, hr⟩
      · rw [hg] at hpre; cases hpre
      · simp [install_gh, hg, hk, hd, runC, hr]
    · simp [install_gh, hg]
  fin_cases hmem
  · unfold runScript preflight check_command
    rw [h1]
    simp [hmiss, fatal]
    decide
  · have hgit := hprev "git" (by decide)
    unfold runScript preflight check_command
    rw [h1]
    simp [hgit, hmiss, fatal]
    decide
  · have hgit := hprev "git" (by decide)
    have hpy := hprev "python3" (by decide)
    unfold runScript preflight check_command
    rw [h1]
    simp [hgit, hpy, hmiss, fatal]
    decide
  · have hgit := hprev "git" (by decide)
    have hpy := hprev "python3" (by decide)
    have hpip := hprev "pip" (by decide)
    unfold runScript preflight check_command
    rw [h1]
    simp [hgit, hpy, hpip, hmiss, fatal]
    decide

/-- Like `happyWorld` but `git` does not resolve. -/
def gitMissingWorld : World :=
  { happyWorld with which := fun c => !(c == "git") }

/-- Witness for C7_missing_command with `git` missing at the concrete
world `gitMissingWorld`. -/
theorem C7_missing_command_witness :
    (runScript gitMissingWorld).exitCode = 1 ∧
    (runScript gitMissingWorld).errMsg =
      some ("[ERROR] Required command '" ++ "git" ++ "' not found. Exiting.") ∧
    containsStr ("[ERROR] Required command '" ++ "git" ++ "' not found. Exiting.") "\n" = false ∧
    containsStr ("[ERROR] Required command '" ++ "git" ++ "' not found. Exiting.") "git" = true :=
  C7_missing_command gitMissingWorld "git" (by decide) (Or.inl (by decide))
    (by
      intro c hc
      rw [show requiredCmds.takeWhile (fun x => x ≠ "git") = [] from by decide] at hc
      exact absurd hc (List.not_mem_nil c))
    (by decide)

/-! ## Claims C4, C9 and C10: preflight checks and the working directory -/

/-- Under a passing preflight, the working directory after phase 1 is the
computed root directory. -/
theorem cwdAfterPreflight_eq (w : World) (hw : ∀ c, w.which c = true)
    (hws : w.isDir "/workspaces" = true) :
    cwdAfterPreflight w = some (computeRootDir w) := by
  unfold cwdAfterPreflight preflight install_gh check_command whichAfterPreflight
  simp [hw, hws, emit, addLog]

/-- C4: with `GITHUB_REPOSITORY=owner/foo` and `/workspaces/foo` an
existing directory, the working directory after phase 1 is
`/workspaces/foo`; when the variable is absent, or the derived path is
not a directory, the working directory falls back to
`/workspaces/adk-agents-golden`. -/
theorem C4_workdir (w : World) (hw : ∀ c, w.which c = true)
    (hws : w.isDir "/workspaces" = true) :
    (w.githubRepository = some "owner/foo" → w.isDir "/workspaces/foo" = true →
      cwdAfterPreflight w = some "/workspaces/foo") ∧
    (w.githubRepository = none →
      cwdAfterPreflight w = some "/workspaces/adk-agents-golden") ∧
    (∀ gr, w.githubRepository = some gr →
      w.isDir (workspacePath (lastSegment gr)) = false →
      cwdAfterPreflight w = some "/workspaces/adk-agents-golden") := by
  refine ⟨?_, ?_, ?_⟩
  · intro hgr hfoo
    rw [cwdAfterPreflight_eq w hw hws]
    have hcand : computeRootDir w =
        if w.isDir "/workspaces/foo" = true then "/workspaces/foo"
        else "/workspaces/adk-agents-golden" := by
      unfold computeRootDir
      rw [hgr]
      exact rfl
    rw [hcand]
    simp [hfoo]
  · intro hgr
    rw [cwdAfterPreflight_eq w hw hws]
    have hcand : computeRootDir w =
        if w.isDir "/workspaces/adk-agents-golden" = true then "/workspaces/adk-agents-golden"
        else "/workspaces/adk-agents-golden" := by
      unfold computeRootDir
      rw [hgr]
      exact rfl
    rw [hcand]
    split <;> rfl
  · intro gr hgr hnd
    rw [cwdAfterPreflight_eq w hw hws]
    have hcand : computeRootDir w =
        if w.isDir (workspacePath (lastSegment gr)) = true then workspacePath (lastSegment gr)
        else "/workspaces/adk-agents-golden" := by
      unfold computeRootDir
      rw [hgr]
      exact rfl
    rw [hcand, hnd]
    simp

/-- Witness for C4_workdir at the concrete world `happyWorld`, where
`GITHUB_REPOSITORY` is absent. -/
theorem C4_workdir_witness :
    cwdAfterPreflight happyWorld = some "/workspaces/adk-agents-golden" :=
  (C4_workdir happyWorld (fun _ => rfl) (by decide)).2.1 rfl

/-- C9: when `/workspaces` does not exist the process exits with code 1
before any filesystem effect of phases 2 and 3: no reference directory
creation, no clone, no pull and no permission change is recorded. -/
theorem C9_no_workspaces (w : World) (hw : ∀ c, w.which c = true)
    (hws : w.isDir "/workspaces" = false) :
    (runScript w).exitCode = 1 ∧
    (runScript w).errMsg = some "[ERROR] /workspaces directory does not exist. Exiting." ∧
    (runScript w).events = [] := by
  unfold runScript preflight install_gh check_command whichAfterPreflight
  simp [hw, hws, fatal, addLog, St.start]

/-- Like `happyWorld` but no path is a directory. -/
def noWorkspacesWorld : World :=
  { happyWorld with isDir := fun _ => false }

/-- Witness for C9_no_workspaces at the concrete world
`noWorkspacesWorld`. -/
theorem C9_no_workspaces_witness :
    (runScript noWorkspacesWorld).exitCode = 1 ∧
    (runScript noWorkspacesWorld).errMsg =
      some "[ERROR] /workspaces directory does not exist. Exiting." ∧
    (runScript noWorkspacesWorld).events = [] :=
  C9_no_workspaces noWorkspacesWorld (fun _ => rfl) (by decide)

/-- C10: when `GITHUB_REPOSITORY` has an empty last segment, such as
`owner/`, the derived path is `/workspaces` itself, which exists, so the
working directory after phase 1 is `/workspaces` and not the fallback
`/workspaces/adk-agents-golden`. -/
theorem C10_empty_segment (w : World) (hw : ∀ c, w.which c = true)
    (hws : w.isDir "/workspaces" = true)
    (hgr : w.githubRepository = some "owner/") :
    cwdAfterPreflight w = some "/workspaces" ∧
    cwdAfterPreflight w ≠ some "/workspaces/adk-agents-golden" := by
  have h : cwdAfterPreflight w = some "/workspaces" := by
    rw [cwdAfterPreflight_eq w hw hws]
    have hcand : computeRootDir w =
        if w.isDir "/workspaces" = true then "/workspaces"
        else "/workspaces/adk-agents-golden" := by
      unfold computeRootDir
      rw [hgr]
      exact rfl
    rw [hcand]
    simp [hws]
  refine ⟨h, ?_⟩
  rw [h]
  decide

/-- Like `happyWorld` but with `GITHUB_REPOSITORY=owner/`. -/
def emptySegmentWorld : World :=
  { happyWorld with githubRepository := some "owner/" }

/-- Witness for C10_empty_segment at the concrete world
`emptySegmentWorld`. -/
theorem C10_empty_segment_witness :
    cwdAfterPreflight emptySegmentWorld = some "/workspaces" ∧
    cwdAfterPreflight emptySegmentWorld ≠ some "/workspaces/adk-agents-golden" :=
  C10_empty_segment emptySegmentWorld (fun _ => rfl) (by decide) rfl

/-! ## Phase-2 machinery: inversion lemmas for the repository loop -/

theorem seqM_ok_inv {x : M St} {f : St → M St} {st' : St}
    (h : seqM x f = .ok st') : ∃ st0, x = .ok st0 ∧ f st0 = .ok st' := by
  cases x with
  | ok s => exact ⟨s, rfl, h⟩
  | error e => simp only [seqM_error] at h; cases h

theorem runC_ok_inv {w : World} {st : St} {cmd : List String} {cwd : Option String}
    {st0 : St} (h : runC w st cmd cwd = .ok st0) :
    st0 = emit st (.runCmd cmd cwd) := by
  unfold runC at h
  split at h
  · injection h with h; exact h.symm
  · unfold fatal at h; cases h

/-- After a successful `syncRepo`, the repo's entry holds a tree produced
by the read-only pass, and no other entry changed. -/
theorem syncRepo_locked {w : World} {st : St} {nu : String × String} {st' : St}
    (h : syncRepo w st nu = .ok st') :
    (∃ t0, st'.repos nu.1 = some (set_permissions true t0)) ∧
    (∀ m, m ≠ nu.1 → st'.repos m = st.repos m) := by
  rcases hr : st.repos nu.1 with _ | t <;> simp only [syncRepo, hr] at h
  · obtain ⟨st0, hx, hf⟩ := seqM_ok_inv h
    have h0 := runC_ok_inv hx
    injection hf with hf
    subst hf
    subst h0
    refine ⟨⟨w.cloneTree nu.1, by simp [emit, addLog, updateRepo]⟩, ?_⟩
    intro m hm
    simp [emit, addLog, updateRepo, hm]
  · obtain ⟨st0, hx, hf⟩ := seqM_ok_inv h
    have h0 := runC_ok_inv hx
    injection hf with hf
    subst hf
    subst h0
    refine ⟨⟨w.pullTree nu.1 (set_permissions false t), by simp [emit, addLog, updateRepo]⟩, ?_⟩
    intro m hm
    simp [emit, addLog, updateRepo, hm]

/-- After a successful run of the loop, every name in the list maps to a
tree produced by the read-only pass, and entries already in that state
stay in it. -/
theorem syncRepos_locked (w : World) :
    ∀ (l : List (String × String)) (st st' : St),
      syncRepos w l st = .ok st' →
      ∀ n, ((∃ t0, st.repos n = some (set_permissions true t0)) ∨ n ∈ l.map Prod.fst) →
        ∃ t0, st'.repos n = some (set_permissions true t0) := by
  intro l
  induction l with
  | nil =>
      intro st st' h n hn
      simp only [syncRepos] at h
      injection h with h
      subst h
      rcases hn with h' | h'
      · exact h'
      · simp at h'
  | cons nu rest ih =>
      intro st st' h n hn
      simp only [syncRepos] at h
      obtain ⟨st1, h1, h2⟩ := seqM_ok_inv h
      obtain ⟨hlock, hpres⟩ := syncRepo_locked h1
      by_cases hcase : n = nu.1
      · subst hcase
        exact ih st1 st' h2 nu.1 (Or.inl hlock)
      · rcases hn with h' | h'
        · exact ih st1 st' h2 n (Or.inl (by rw [hpres n hcase]; exact h'))
        · simp only [List.map_cons, List.mem_cons] at h'
          rcases h' with h' | h'
          · exact absurd h' hcase
          · exact ih st1 st' h2 n (Or.inr h')

/-- Phase 3 never touches the reference repositories. -/
theorem venvPhase_repos {w : World} {st st' : St}
    (h : venvPhase w st = .ok st') : st'.repos = st.repos := by
  simp only [venvPhase] at h
  obtain ⟨st0, hx, hf⟩ := seqM_ok_inv h
  have h0 : st0.repos = st.repos := by
    split at hx
    · injection hx with hx; rw [← hx]; rfl
    · rw [runC_ok_inv hx]; rfl
  split at hf
  · obtain ⟨st1, hx1, hf1⟩ := seqM_ok_inv hf
    have h1 : st1.repos = st0.repos := by rw [runC_ok_inv hx1]; rfl
    split at hf1
    · rw [runC_ok_inv hf1]
      show st1.repos = st.repos
      rw [h1, h0]
    · injection hf1 with hf1
      rw [← hf1]
      show st1.repos = st.repos
      rw [h1, h0]
  · unfold fatal at hf; cases hf

/-- A successful `syncPhase` decomposes into a successful loop run. -/
theorem syncPhase_ok_inv {w : World} {st st' : St}
    (h : syncPhase w st = .ok st') :
    ∃ stS, syncRepos w repoList
        { addLog (emit st (.mkdirP referenceDir))
            ("Cloning reference repositories into " ++ referenceDir) with
          repos := w.initRepos } = .ok stS ∧
      st'.repos = stS.repos ∧ st'.events = stS.events ++ [.chdir stS.rootDir] := by
  simp only [syncPhase] at h
  obtain ⟨stS, hS, hk⟩ := seqM_ok_inv h
  injection hk with hk
  subst hk
  exact ⟨stS, hS, rfl, rfl⟩

/-- C2 counterexample: a full successful run in a fresh world leaves the
top-level directory of a reference repository at the mode the clone gave
it (`0o755` here), not at the claimed `0o555`: `os.walk` never chmods the
walked root, so the read-only pass does not cover the repository's
top-level directory. -/
theorem C2_counterexample :
    (runScript happyWorld).exitCode = 0 ∧
    ((runScript happyWorld).repos "adk-python").map FSTree.mode = some 0o755 ∧
    ((runScript happyWorld).repos "adk-python").map FSTree.mode ≠ some 0o555 := by
  decide

/-- C2 (amended): after a successful run, every reference repository
directory exists in the reference map and every proper descendant is
read-only — directories at mode 0555 and files at mode 0444 — except
transiently during that repository's own pull step; the repository's own
top-level directory is not touched by the permission pass and keeps the
mode the clone or pull left it. -/
theorem C2_reference_repos_read_only (w : World)
    (h0 : (runScript w).exitCode = 0) :
    ∀ nu ∈ repoList, ∃ t, (runScript w).repos nu.1 = some t ∧
      childModes 0o555 0o444 t = true := by
  unfold runScript at h0 ⊢
  cases hall : seqM (preflight w St.start) (fun st => seqM (syncPhase w st) (venvPhase w)) with
  | error p => rw [hall] at h0; exact absurd h0 (by simp)
  | ok stF =>
      obtain ⟨st1, h1, h2⟩ := seqM_ok_inv hall
      obtain ⟨st2, h2a, h2b⟩ := seqM_ok_inv h2
      obtain ⟨stS, hS, hrep, _⟩ := syncPhase_ok_inv h2a
      have hv := venvPhase_repos h2b
      intro nu hnu
      have hmem : nu.1 ∈ repoList.map Prod.fst := List.mem_map_of_mem Prod.fst hnu
      obtain ⟨t0, ht⟩ := syncRepos_locked w repoList _ stS hS nu.1 (Or.inr hmem)
      refine ⟨set_permissions true t0, ?_, childModes_set_permissions_readOnly t0⟩
      show stF.repos nu.1 = some (set_permissions true t0)
      rw [hv, hrep]
      exact ht

/-- Witness for C2_reference_repos_read_only at the concrete world
`happyWorld`. -/
theorem C2_reference_repos_read_only_witness :
    ∃ t, (runScript happyWorld).repos "adk-python" = some t ∧
      childModes 0o555 0o444 t = true :=
  C2_reference_repos_read_only happyWorld (by decide)
    ("adk-python", "https://github.com/google/adk-python") (by decide)

/-! ## Event characterization of the repository loop -/

/-- The observable events of one iteration of the repository loop:
a clone followed by the read-only pass when the directory was absent, and
the writable pass, a pull and the read-only pass when it existed. -/
def syncBlock (hasDir : Bool) (nu : String × String) : List Event :=
  if hasDir then
    [.chmodTree (referenceDir ++ "/" ++ nu.1) false,
     .runCmd ["git", "pull"] (some (referenceDir ++ "/" ++ nu.1)),
     .chmodTree (referenceDir ++ "/" ++ nu.1) true]
  else
    [.runCmd ["git", "clone", nu.2, referenceDir ++ "/" ++ nu.1] none,
     .chmodTree (referenceDir ++ "/" ++ nu.1) true]

theorem syncRepo_ok_none (w : World) (st : St) (nu : String × String)
    (hrun : ∀ c, w.runOk c = true) (hr : st.repos nu.1 = none) :
    syncRepo w st nu = .ok
      { logs := st.logs ++ ["Cloning " ++ nu.1 ++ " from " ++ nu.2]
        events := st.events ++ syncBlock false nu
        rootDir := st.rootDir
        cwd := st.cwd
        repos := updateRepo (updateRepo st.repos nu.1 (w.cloneTree nu.1)) nu.1
          (set_permissions true (w.cloneTree nu.1)) } := by
  simp only [syncRepo, hr]
  simp [runC, hrun, emit, addLog, syncBlock]

theorem syncRepo_ok_some (w : World) (st : St) (nu : String × String) (t : FSTree)
    (hrun : ∀ c, w.runOk c = true) (hr : st.repos nu.1 = some t) :
    syncRepo w st nu = .ok
      { logs := st.logs ++ [nu.1 ++ " already exists, making it writable to pull latest changes."]
        events := st.events ++ syncBlock true nu
        rootDir := st.rootDir
        cwd := st.cwd
        repos := updateRepo
          (updateRepo (updateRepo st.repos nu.1 (set_permissions false t)) nu.1
            (w.pullTree nu.1 (set_permissions false t))) nu.1
          (set_permissions true (w.pullTree nu.1 (set_permissions false t))) } := by
  simp only [syncRepo, hr]
  simp [runC, hrun, emit, addLog, syncBlock]

/-- A loop iteration always succeeds when external commands succeed, adds
exactly its event block, keeps the root directory and working directory,
and leaves other repositories' entries unchanged. -/
theorem syncRepo_exists (w : World) (st : St) (nu : String × String)
    (hrun : ∀ c, w.runOk c = true) :
    ∃ st', syncRepo w st nu = .ok st' ∧
      st'.events = st.events ++ syncBlock (st.repos nu.1).isSome nu ∧
      st'.rootDir = st.rootDir ∧
      st'.cwd = st.cwd ∧
      (∀ m, m ≠ nu.1 → st'.repos m = st.repos m) := by
  rcases hr : st.repos nu.1 with _ | t
  · exact ⟨_, syncRepo_ok_none w st nu hrun hr, rfl, rfl, rfl,
      fun m hm => by simp [updateRepo, hm]⟩
  · exact ⟨_, syncRepo_ok_some w st nu t hrun hr, rfl, rfl, rfl,
      fun m hm => by simp [updateRepo, hm]⟩

/-- The whole loop succeeds when external commands succeed, preserving
the root directory and working directory. -/
theorem syncRepos_exists (w : World) (hrun : ∀ c, w.runOk c = true) :
    ∀ (l : List (String × String)) (st : St),
      ∃ st', syncRepos w l st = .ok st' ∧
        st'.rootDir = st.rootDir ∧ st'.cwd = st.cwd := by
  intro l
  induction l with
  | nil => intro st; exact ⟨st, rfl, rfl, rfl⟩
  | cons nu rest ih =>
      intro st
      obtain ⟨st1, h1, _, hr1, hc1, _⟩ := syncRepo_exists w st nu hrun
      obtain ⟨st2, h2, hr2, hc2⟩ := ih st1
      refine ⟨st2, ?_, hr2.trans hr1, hc2.trans hc1⟩
      simp only [syncRepos]
      rw [h1]
      exact h2

theorem clone_mem_syncBlock_iff (b : Bool) (nu : String × String) (u p : String) :
    (Event.runCmd ["git", "clone", u, p] none ∈ syncBlock b nu) ↔
      (b = false ∧ u = nu.2 ∧ p = referenceDir ++ "/" ++ nu.1) := by
  cases b <;> simp [syncBlock, and_assoc]

theorem pull_mem_syncBlock_iff (b : Bool) (nu : String × String) (p : String) :
    (Event.runCmd ["git", "pull"] (some p) ∈ syncBlock b nu) ↔
      (b = true ∧ p = referenceDir ++ "/" ++ nu.1) := by
  cases b <;> simp [syncBlock]

/-- C3: for each of the four fixed (name, URL) pairs, under succeeding
external commands, the repository loop: clones exactly when the target
directory is absent (and then never pulls it); and when the directory
already exists it never clones it and instead runs the contiguous
writable-toggle, pull, read-only-toggle sequence. -/
theorem C3_repo_sync (w : World) (st : St) (hrun : ∀ c, w.runOk c = true)
    (hev : st.events = []) :
    ∃ st', syncPhase w st = .ok st' ∧ ∀ nu ∈ repoList,
      ((w.initRepos nu.1).isSome = true →
        Event.runCmd ["git", "clone", nu.2, referenceDir ++ "/" ++ nu.1] none ∉ st'.events ∧
        List.IsInfix
          [Event.chmodTree (referenceDir ++ "/" ++ nu.1) false,
           Event.runCmd ["git", "pull"] (some (referenceDir ++ "/" ++ nu.1)),
           Event.chmodTree (referenceDir ++ "/" ++ nu.1) true] st'.events) ∧
      (w.initRepos nu.1 = none →
        Event.runCmd ["git", "clone", nu.2, referenceDir ++ "/" ++ nu.1] none ∈ st'.events ∧
        Event.runCmd ["git", "pull"] (some (referenceDir ++ "/" ++ nu.1)) ∉ st'.events) := by
  obtain ⟨st1, h1, he1, hr1, hc1, hp1⟩ := syncRepo_exists w
    { addLog (emit st (.mkdirP referenceDir))
        ("Cloning reference repositories into " ++ referenceDir) with repos := w.initRepos }
    ("adk-python", "https://github.com/google/adk-python") hrun
  obtain ⟨st2, h2, he2, hr2, hc2, hp2⟩ := syncRepo_exists w st1
    ("adk-samples", "https://github.com/google/adk-samples") hrun
  obtain ⟨st3, h3, he3, hr3, hc3, hp3⟩ := syncRepo_exists w st2
    ("adk-docs", "https://github.com/google/adk-docs") hrun
  obtain ⟨st4, h4, he4, hr4, hc4, hp4⟩ := syncRepo_exists w st3
    ("adk-python-community", "https://github.com/google/adk-python-community") hrun
  have hq1 : ({ addLog (emit st (.mkdirP referenceDir))
      ("Cloning reference repositories into " ++ referenceDir) with
        repos := w.initRepos } : St).repos "adk-python" = w.initRepos "adk-python" := rfl
  rw [hq1] at he1
  have hq2 : st1.repos "adk-samples" = w.initRepos "adk-samples" :=
    hp1 "adk-samples" (by decide)
  rw [hq2] at he2
  have hq3 : st2.repos "adk-docs" = w.initRepos "adk-docs" := by
    rw [hp2 "adk-docs" (by decide)]
    exact hp1 "adk-docs" (by decide)
  rw [hq3] at he3
  have hq4 : st3.repos "adk-python-community" = w.initRepos "adk-python-community" := by
    rw [hp3 "adk-python-community" (by decide), hp2 "adk-python-community" (by decide)]
    exact hp1 "adk-python-community" (by decide)
  rw [hq4] at he4
  have he0 : ({ addLog (emit st (.mkdirP referenceDir))
      ("Cloning reference repositories into " ++ referenceDir) with
        repos := w.initRepos } : St).events = [Event.mkdirP referenceDir] := by
    show st.events ++ [Event.mkdirP referenceDir] = _
    rw [hev]
    rfl
  rw [he0] at he1
  have hev4 : st4.events =
      [Event.mkdirP referenceDir] ++
        syncBlock (w.initRepos "adk-python").isSome
          ("adk-python", "https://github.com/google/adk-python") ++
        syncBlock (w.initRepos "adk-samples").isSome
          ("adk-samples", "https://github.com/google/adk-samples") ++
        syncBlock (w.initRepos "adk-docs").isSome
          ("adk-docs", "https://github.com/google/adk-docs") ++
        syncBlock (w.initRepos "adk-python-community").isSome
          ("adk-python-community", "https://github.com/google/adk-python-community") := by
    rw [he4, he3, he2, he1]
  have hS : syncRepos w repoList
      { addLog (emit st (.mkdirP referenceDir))
          ("Cloning reference repositories into " ++ referenceDir) with
        repos := w.initRepos } = .ok st4 := by
    simp only [repoList, syncRepos]
    rw [h1]
    simp only [seqM_ok]
    rw [h2]
    simp only [seqM_ok]
    rw [h3]
    simp only [seqM_ok]
    rw [h4]
    rfl
  refine ⟨addLog (emit { st4 with cwd := some st4.rootDir } (.chdir st4.rootDir))
    ("Changed directory back to " ++ st4.rootDir), ?_, ?_⟩
  · simp only [syncPhase]
    rw [hS]
    rfl
  · have hevF : (addLog (emit { st4 with cwd := some st4.rootDir } (.chdir st4.rootDir))
        ("Changed directory back to " ++ st4.rootDir)).events =
        st4.events ++ [Event.chdir st4.rootDir] := rfl
    intro nu hnu
    simp only [repoList, List.mem_cons, List.not_mem_nil, or_false] at hnu
    rcases hnu with rfl | rfl | rfl | rfl
    · constructor
      · intro hj
        constructor
        · rw [hevF, hev4, hj]
          simp [clone_mem_syncBlock_iff]
        · rw [hevF, hev4, hj]
          refine ⟨[Event.mkdirP referenceDir],
            syncBlock (w.initRepos "adk-samples").isSome
                ("adk-samples", "https://github.com/google/adk-samples") ++
              syncBlock (w.initRepos "adk-docs").isSome
                ("adk-docs", "https://github.com/google/adk-docs") ++
              syncBlock (w.initRepos "adk-python-community").isSome
                ("adk-python-community", "https://github.com/google/adk-python-community") ++
              [Event.chdir st4.rootDir], ?_⟩
          simp [syncBlock, List.append_assoc]
      · intro hj
        constructor
        · rw [hevF, hev4, hj]
          simp [clone_mem_syncBlock_iff]
        · rw [hevF, hev4, hj]
          simp [pull_mem_syncBlock_iff,
            show (referenceDir ++ "/" ++ "adk-python" : String) =
              "/workspaces/adk-reference-repos/adk-python" from rfl,
            show (referenceDir ++ "/" ++ "adk-samples" : String) =
              "/workspaces/adk-reference-repos/adk-samples" from rfl,
            show (referenceDir ++ "/" ++ "adk-docs" : String) =
              "/workspaces/adk-reference-repos/adk-docs" from rfl,
            show (referenceDir ++ "/" ++ "adk-python-community" : String) =
              "/workspaces/adk-reference-repos/adk-python-community" from rfl]
    · constructor
      · intro hj
        constructor
        · rw [hevF, hev4, hj]
          simp [clone_mem_syncBlock_iff]
        · rw [hevF, hev4, hj]
          refine ⟨[Event.mkdirP referenceDir] ++
            syncBlock (w.initRepos "adk-python").isSome
              ("adk-python", "https://github.com/google/adk-python"),
            syncBlock (w.initRepos "adk-docs").isSome
                ("adk-docs", "https://github.com/google/adk-docs") ++
              syncBlock (w.initRepos "adk-python-community").isSome
                ("adk-python-community", "https://github.com/google/adk-python-community") ++
              [Event.chdir st4.rootDir], ?_⟩
          simp [syncBlock, List.append_assoc]
      · intro hj
        constructor
        · rw [hevF, hev4, hj]
          simp [clone_mem_syncBlock_iff]
        · rw [hevF, hev4, hj]
          simp [pull_mem_syncBlock_iff,
            show (referenceDir ++ "/" ++ "adk-python" : String) =
              "/workspaces/adk-reference-repos/adk-python" from rfl,
            show (referenceDir ++ "/" ++ "adk-samples" : String) =
              "/workspaces/adk-reference-repos/adk-samples" from rfl,
            show (referenceDir ++ "/" ++ "adk-docs" : String) =
              "/workspaces/adk-reference-repos/adk-docs" from rfl,
            show (referenceDir ++ "/" ++ "adk-python-community" : String) =
              "/workspaces/adk-reference-repos/adk-python-community" from rfl]
    · constructor
      · intro hj
        constructor
        · rw [hevF, hev4, hj]
          simp [clone_mem_syncBlock_iff]
        · rw [hevF, hev4, hj]
          refine ⟨[Event.mkdirP referenceDir] ++
            syncBlock (w.initRepos "adk-python").isSome
              ("adk-python", "https://github.com/google/adk-python") ++
            syncBlock (w.initRepos "adk-samples").isSome
              ("adk-samples", "https://github.com/google/adk-samples"),
            syncBlock (w.initRepos "adk-python-community").isSome
                ("adk-python-community", "https://github.com/google/adk-python-community") ++
              [Event.chdir st4.rootDir], ?_⟩
          simp [syncBlock, List.append_assoc]
      · intro hj
        constructor
        · rw [hevF, hev4, hj]
          simp [clone_mem_syncBlock_iff]
        · rw [hevF, hev4, hj]
          simp [pull_mem_syncBlock_iff,
            show (referenceDir ++ "/" ++ "adk-python" : String) =
              "/workspaces/adk-reference-repos/adk-python" from rfl,
            show (referenceDir ++ "/" ++ "adk-samples" : String) =
              "/workspaces/adk-reference-repos/adk-samples" from rfl,
            show (referenceDir ++ "/" ++ "adk-docs" : String) =
              "/workspaces/adk-reference-repos/adk-docs" from rfl,
            show (referenceDir ++ "/" ++ "adk-python-community" : String) =
              "/workspaces/adk-reference-repos/adk-python-community" from rfl]
    · constructor
      · intro hj
        constructor
        · rw [hevF, hev4, hj]
          simp [clone_mem_syncBlock_iff]
        · rw [hevF, hev4, hj]
          refine ⟨[Event.mkdirP referenceDir] ++
            syncBlock (w.initRepos "adk-python").isSome
              ("adk-python", "https://github.com/google/adk-python") ++
            syncBlock (w.initRepos "adk-samples").isSome
              ("adk-samples", "https://github.com/google/adk-samples") ++
            syncBlock (w.initRepos "adk-docs").isSome
              ("adk-docs", "https://github.com/google/adk-docs"),
            [Event.chdir st4.rootDir], ?_⟩
          simp [syncBlock, List.append_assoc]
      · intro hj
        constructor
        · rw [hevF, hev4, hj]
          simp [clone_mem_syncBlock_iff]
        · rw [hevF, hev4, hj]
          simp [pull_mem_syncBlock_iff,
            show (referenceDir ++ "/" ++ "adk-python" : String) =
              "/workspaces/adk-reference-repos/adk-python" from rfl,
            show (referenceDir ++ "/" ++ "adk-samples" : String) =
              "/workspaces/adk-reference-repos/adk-samples" from rfl,
            show (referenceDir ++ "/" ++ "adk-docs" : String) =
              "/workspaces/adk-reference-repos/adk-docs" from rfl,
            show (referenceDir ++ "/" ++ "adk-python-community" : String) =
              "/workspaces/adk-reference-repos/adk-python-community" from rfl]

/-- A fully provisioned workspace: every reference repository already
exists. -/
def provisionedWorld : World :=
  { happyWorld with
    initRepos := fun n => some (.dir n 0o755 (.cons (.file "README.md" 0o644) .nil)) }

/-- Witness for C3_repo_sync at the concrete world `provisionedWorld`. -/
theorem C3_repo_sync_witness :
    ∃ st', syncPhase provisionedWorld St.start = .ok st' ∧ ∀ nu ∈ repoList,
      ((provisionedWorld.initRepos nu.1).isSome = true →
        Event.runCmd ["git", "clone", nu.2, referenceDir ++ "/" ++ nu.1] none ∉ st'.events ∧
        List.IsInfix
          [Event.chmodTree (referenceDir ++ "/" ++ nu.1) false,
           Event.runCmd ["git", "pull"] (some (referenceDir ++ "/" ++ nu.1)),
           Event.chmodTree (referenceDir ++ "/" ++ nu.1) true] st'.events) ∧
      (provisionedWorld.initRepos nu.1 = none →
        Event.runCmd ["git", "clone", nu.2, referenceDir ++ "/" ++ nu.1] none ∈ st'.events ∧
        Event.runCmd ["git", "pull"] (some (referenceDir ++ "/" ++ nu.1)) ∉ st'.events) :=
  C3_repo_sync provisionedWorld St.start (fun _ => rfl) rfl

/-! ## Claim C8: the dependency manifest is optional -/

/-- Phase 3 succeeds with the skip warning when the interpreter check
passes and the manifest is absent. -/
theorem venvPhase_warning (w : World) (st : St)
    (hrun : ∀ c, w.runOk c = true)
    (hroot : st.rootDir = "/workspaces/adk-agents-golden")
    (hpy : w.isFile "/workspaces/adk-agents-golden/.venv/bin/python" = true)
    (hreq : w.isFile "/workspaces/adk-agents-golden/requirements.txt" = false) :
    ∃ st3, venvPhase w st = .ok st3 ∧
      "Warning: requirements.txt not found. Skipping dependency installation." ∈ st3.logs := by
  have hpy2 : w.isFile (st.rootDir ++ "/.venv" ++ "/bin/python") = true := by
    rw [hroot]; exact hpy
  have hreq2 : w.isFile (st.rootDir ++ "/requirements.txt") = false := by
    rw [hroot]; exact hreq
  simp only [venvPhase]
  rcases hvd : w.isDir (st.rootDir ++ "/.venv") with _ | _
  · simp only [hvd, runC, hrun, hpy2, hreq2, emit, addLog, Bool.false_eq_true, if_false,
      if_true, seqM_ok, ite_true, ite_false]
    exact ⟨_, rfl, by simp⟩
  · simp only [hvd, runC, hrun, hpy2, hreq2, emit, addLog, Bool.false_eq_true, if_false,
      if_true, seqM_ok, ite_true, ite_false]
    exact ⟨_, rfl, by simp⟩

/-- C8: when `requirements.txt` is absent at the workspace root, the run
still completes with exit code 0, logging the skip warning instead of
failing. -/
theorem C8_missing_manifest (w : World)
    (hw : ∀ c, w.which c = true)
    (hrun : ∀ c, w.runOk c = true)
    (hgr : w.githubRepository = none)
    (hws : w.isDir "/workspaces" = true)
    (hpy : w.isFile "/workspaces/adk-agents-golden/.venv/bin/python" = true)
    (hreq : w.isFile "/workspaces/adk-agents-golden/requirements.txt" = false) :
    (runScript w).exitCode = 0 ∧
    "Warning: requirements.txt not found. Skipping dependency installation." ∈
      (runScript w).logs := by
  have hcomp : computeRootDir w = "/workspaces/adk-agents-golden" := by
    have hcand : computeRootDir w =
        if w.isDir "/workspaces/adk-agents-golden" = true then "/workspaces/adk-agents-golden"
        else "/workspaces/adk-agents-golden" := by
      unfold computeRootDir
      rw [hgr]
      exact rfl
    rw [hcand]
    split <;> rfl
  have hpre : ∃ st1, preflight w St.start = .ok st1 ∧
      st1.rootDir = "/workspaces/adk-agents-golden" := by
    unfold preflight install_gh check_command whichAfterPreflight
    simp only [hw, hws, emit, addLog, hcomp, Bool.true_eq_false, if_true, seqM_ok,
      ite_true, Bool.not_true, Bool.and_false, Bool.and_true, ite_false]
    exact ⟨_, rfl, by simp⟩
  obtain ⟨st1, h1, hroot1⟩ := hpre
  obtain ⟨stS, hS, hrS, hcS⟩ := syncRepos_exists w hrun repoList
    { addLog (emit st1 (.mkdirP referenceDir))
        ("Cloning reference repositories into " ++ referenceDir) with repos := w.initRepos }
  have hsync : syncPhase w st1 = .ok
      (addLog (emit { stS with cwd := some stS.rootDir } (.chdir stS.rootDir))
        ("Changed directory back to " ++ stS.rootDir)) := by
    simp only [syncPhase]
    rw [hS]
    rfl
  have hrootS : stS.rootDir = "/workspaces/adk-agents-golden" := by
    rw [hrS]; exact hroot1
  obtain ⟨st3, h3, hw3⟩ := venvPhase_warning w
    (addLog (emit { stS with cwd := some stS.rootDir } (.chdir stS.rootDir))
      ("Changed directory back to " ++ stS.rootDir)) hrun hrootS hpy hreq
  have hfull : (seqM (preflight w St.start)
      (fun st => seqM (syncPhase w st) (venvPhase w))) = .ok st3 := by
    rw [h1]
    simp only [seqM_ok]
    rw [hsync]
    simp only [seqM_ok]
    exact h3
  unfold runScript
  rw [hfull]
  exact ⟨rfl, hw3⟩

/-- Witness for C8_missing_manifest at the concrete world `happyWorld`. -/
theorem C8_missing_manifest_witness :
    (runScript happyWorld).exitCode = 0 ∧
    "Warning: requirements.txt not found. Skipping dependency installation." ∈
      (runScript happyWorld).logs :=
  C8_missing_manifest happyWorld (fun _ => rfl) (fun _ => rfl) rfl (by decide)
    (by decide) (by decide)

end PostCreate
